import Mathlib

/-!
Verification of the darkfi client state engine (src/bin/darkfid.rs,
src/bin/darkfid-old.rs, src/cli/drk_cli.rs) against its specification.

The Rust sources are shallowly embedded below.  Types owned by the external
`drk` crate (commitment tree, incremental witness, note encryption, the
rocksdb column wrapper, the wallet store and the transaction validator) are
not part of this repository snapshot; they are modelled from the spec, as
marked in their doc comments.  Everything in `State`, `StateOld`, `apply`,
`try_decrypt_note`, `subscribe` and `DrkCli.load` is translated directly
from the Rust source.
-/

namespace DarkfiSpec

abbrev Coin := Nat
abbrev Note := Nat
abbrev Secret := Nat
abbrev PubKey := Nat
abbrev Nullifier := Nat
abbrev MerkleNode := Nat
abbrev Pvk := Nat
abbrev MerkleRoot := List MerkleNode

inductive DarkError where
  | decodeFail
  | invalidProof
  | nullifierReused
  | parseFail
deriving DecidableEq

structure EncryptedNote where
  key : Secret
  plain : Note
deriving DecidableEq

/-- Modelled from the spec: note decryption (`drk::crypto::note`, not under
src/) is deterministic trial decryption; a ciphertext decrypts exactly under
its matching secret, and failure is a normal negative result. -/
def EncryptedNote.decrypt (c : EncryptedNote) (secret : Secret) : Option Note :=
  if secret = c.key then some c.plain else none

/-- Modelled from the spec: the commitment tree (`drk::crypto::merkle`, not
under src/) is an append-only sequence of leaves. -/
structure CommitmentTree where
  leaves : List MerkleNode
deriving DecidableEq

def CommitmentTree.empty : CommitmentTree := ⟨[]⟩

def CommitmentTree.append (t : CommitmentTree) (n : MerkleNode) : CommitmentTree :=
  ⟨t.leaves ++ [n]⟩

/-- Modelled from the spec: the root is a deterministic function of the
ordered leaf sequence (spec section 3), idealised here as the sequence
itself (perfect collision resistance). -/
def CommitmentTree.root (t : CommitmentTree) : MerkleRoot := t.leaves

/-- Modelled from the spec: an incremental witness is bound to the tree
state at its creation and accumulates one appended leaf per later tree
append, in order (spec section 3). -/
structure IncrementalWitness where
  created : List MerkleNode
  advanced : List MerkleNode
deriving DecidableEq

def IncrementalWitness.from_tree (t : CommitmentTree) : IncrementalWitness :=
  ⟨t.leaves, []⟩

def IncrementalWitness.append (w : IncrementalWitness) (n : MerkleNode) : IncrementalWitness :=
  ⟨w.created, w.advanced ++ [n]⟩

/-- Modelled from the spec: leaves are derived deterministically from coins
(spec section 3); the derivation is idealised as the identity. -/
def MerkleNode.from_coin (c : Coin) : MerkleNode := c

/-- Modelled from the spec: a durable key-value column (`drk::blockchain`,
not under src/) used as a set; `put` records a key, `key_exist` tests
membership.  Store access is modelled as infallible in-memory state. -/
structure RocksColumn (α : Type) where
  keys : List α
deriving DecidableEq

def RocksColumn.put {α : Type} [DecidableEq α] (c : RocksColumn α) (k : α) : RocksColumn α :=
  if k ∈ c.keys then c else ⟨c.keys ++ [k]⟩

def RocksColumn.key_exist {α : Type} [DecidableEq α] (c : RocksColumn α) (k : α) : Bool :=
  decide (k ∈ c.keys)

/-- `drk::state::StateUpdate`: the validated delta consumed by `apply`. -/
structure StateUpdate where
  nullifiers : List Nullifier
  coins : List Coin
  enc_notes : List EncryptedNote
deriving DecidableEq

/-- The `State` struct of src/bin/darkfid.rs.  `cashierTable` models the
contents of the external cashier.db table read by
`is_valid_cashier_public_key` (the wallet store's cashier-key registry). -/
structure State where
  tree : CommitmentTree
  merkle_roots : RocksColumn MerkleRoot
  nullifiers : RocksColumn Nullifier
  own_coins : List (Coin × Note × Secret × IncrementalWitness)
  mint_pvk : Pvk
  spend_pvk : Pvk
  cashier_public : PubKey
  secrets : List Secret
  cashierTable : List PubKey
deriving DecidableEq

/-- A rusqlite-level error, as far as the embedded code can encounter one. -/
inductive SqlError where
  | invalidParamCount (got expected : Nat)
deriving DecidableEq

/-- The number of `?` placeholders in the prepared cashier query
`SELECT key_public FROM cashier WHERE key_public IN (SELECT key_public)`:
the text contains none. -/
def cashierQueryParamCount : Nat := 0

/-- Modelled from rusqlite's documented behavior: `Statement.exists(params)`
first binds the supplied parameters and reports `InvalidParameterCount` when
their number differs from the statement's placeholder count; only then does
it run the query and report whether a row exists. -/
def stmtExists (placeholders : Nat) (params : List Int) (rowExists : Bool) :
    Except SqlError Bool :=
  if params.length ≠ placeholders then
    .error (.invalidParamCount params.length placeholders)
  else .ok rowExists

/-- src/bin/darkfid.rs `is_valid_cashier_public_key` (darkfid-old.rs 54-61 is
identical up to the wallet path and `expect`): the prepared query has zero
placeholders, yet `stmt.exists([1i32])` supplies one parameter, so the call
returns `InvalidParameterCount` and the `.unwrap()` panics on every
invocation; the function never returns a boolean and never consults the
`_public` argument.  The panic is modelled as the `none` outcome; the
`rowExists` argument carries what the query would report had it run. -/
def State.is_valid_cashier_public_key (s : State) (_public : PubKey) : Option Bool :=
  match stmtExists cashierQueryParamCount [1] (!s.cashierTable.isEmpty) with
  | .ok b => some b
  | .error _ => none

/-- src/bin/darkfid.rs `is_valid_merkle`. -/
def State.is_valid_merkle (s : State) (merkle_root : MerkleRoot) : Bool :=
  s.merkle_roots.key_exist merkle_root

/-- src/bin/darkfid.rs `nullifier_exists`. -/
def State.nullifier_exists (s : State) (nf : Nullifier) : Bool :=
  s.nullifiers.key_exist nf

/-- src/bin/darkfid.rs `try_decrypt_note`: the whole trial-decryption body
is commented out in the source; the function unconditionally returns
`None`. -/
def State.try_decrypt_note (_s : State) (_ciphertext : EncryptedNote) :
    Option (Note × Secret) :=
  none

/-- The body of the per-(coin, encrypted note) iteration of
src/bin/darkfid.rs `State::apply`: append the coin leaf, record the new
root, advance every held witness with the fresh leaf, then attempt
decryption and on success register the owned coin with a witness taken from
the tree right after this append. -/
def State.applyCoinStep (s : State) (p : Coin × EncryptedNote) : State :=
  let node := MerkleNode.from_coin p.1
  let tree := s.tree.append node
  let merkle_roots := s.merkle_roots.put tree.root
  let own_coins := s.own_coins.map (fun oc => (oc.1, oc.2.1, oc.2.2.1, oc.2.2.2.append node))
  let s1 : State := { s with tree := tree, merkle_roots := merkle_roots, own_coins := own_coins }
  match s1.try_decrypt_note p.2 with
  | some (note, secret) =>
      { s1 with own_coins :=
          s1.own_coins ++ [(p.1, note, secret, IncrementalWitness.from_tree s1.tree)] }
  | none => s1

/-- src/bin/darkfid.rs `State::apply`, state part: first the nullifier
loop, then the loop over `update.coins.zip(update.enc_notes)`. -/
def State.applyState (s : State) (u : StateUpdate) : State :=
  let s1 : State := { s with nullifiers := u.nullifiers.foldl RocksColumn.put s.nullifiers }
  (u.coins.zip u.enc_notes).foldl State.applyCoinStep s1

/-- src/bin/darkfid.rs `State::apply`.  The only fallible operations in the
Rust body are store puts (modelled infallible) and tree/witness appends
whose failure aborts the process, so the embedded `apply` always returns
`Ok`. -/
def State.apply (s : State) (u : StateUpdate) : Except DarkError State :=
  .ok (s.applyState u)

/-- `State.applyState` iterated over a sequence of updates. -/
def State.applyAll (s : State) (us : List StateUpdate) : State :=
  us.foldl State.applyState s

/-- A decoded transaction, reduced to what the modelled validator needs:
whether its zero-knowledge proofs verify, and the state delta it induces. -/
structure Transaction where
  proofsValid : Bool
  update : StateUpdate
deriving DecidableEq

/-- An opaque payload from the gateway subscription; `none` models an
undecodable payload. -/
structure Slab where
  payload : Option Transaction
deriving DecidableEq

/-- Modelled from the spec: `drk::serial` decoding of a slab payload (not
under src/) yields the transaction or a decode error. -/
def Transaction.decode (slab : Slab) : Except DarkError Transaction :=
  match slab.payload with
  | some tx => .ok tx
  | none => .error .decodeFail

/-- Modelled from the spec: the external transaction validator
(`drk::state::state_transition`, not under src/) verifies the embedded
proofs against the verifying keys and checks nullifier non-reuse through
the ProgramState predicates, returning the StateUpdate or a validation
error (spec section 6). -/
def state_transition (s : State) (tx : Transaction) : Except DarkError StateUpdate :=
  if tx.proofsValid = false then .error .invalidProof
  else if tx.update.nullifiers.any (fun n => s.nullifier_exists n) then .error .nullifierReused
  else .ok tx.update

/-- src/bin/darkfid.rs `subscribe`: the event loop over the gateway
subscription, with each `?` translated to an explicit error return.  The
unbounded `loop` is modelled over a finite list of delivered slabs. -/
def subscribe (s : State) : List Slab → Except DarkError State
  | [] => .ok s
  | slab :: rest =>
    match Transaction.decode slab with
    | .error e => .error e
    | .ok tx =>
      match state_transition s tx with
      | .error e => .error e
      | .ok update =>
        match s.apply update with
        | .error e => .error e
        | .ok s' => subscribe s' rest

/-- Modelled from the spec: the wallet collaborator (`drk::wallet`, not
under src/) holds the spending secret, the witness store and the owned-coin
records (spec sections 3 and 6). -/
structure Wallet where
  privateKey : Secret
  witnesses : List IncrementalWitness
  own_coins : List (Coin × Note × Secret × IncrementalWitness)
deriving DecidableEq

def Wallet.get_private (w : Wallet) : Secret := w.privateKey

/-- Modelled from the spec: `put_own_coins` registers the owned-coin record
and adds its witness to the wallet witness store, so the witness receives
one update per later append (spec section 3 invariant). -/
def Wallet.put_own_coins (w : Wallet) (coin : Coin) (note : Note)
    (witness : IncrementalWitness) (secret : Secret) : Wallet :=
  { w with
    own_coins := w.own_coins ++ [(coin, note, secret, witness)],
    witnesses := w.witnesses ++ [witness] }

/-- The `State` struct of src/bin/darkfid-old.rs (wallet-backed variant). -/
structure StateOld where
  tree : CommitmentTree
  merkle_roots : RocksColumn MerkleRoot
  nullifiers : RocksColumn Nullifier
  mint_pvk : Pvk
  spend_pvk : Pvk
  wallet : Wallet
deriving DecidableEq

/-- src/bin/darkfid-old.rs `try_decrypt_note`: fetch the wallet's private
key and attempt decryption with it, returning the note and key on success
and `None` on the normal negative result. -/
def StateOld.try_decrypt_note (s : StateOld) (ciphertext : EncryptedNote) :
    Option (Note × Secret) :=
  let secret := s.wallet.get_private
  match ciphertext.decrypt secret with
  | some note => some (note, secret)
  | none => none

/-- The body of the per-(coin, encrypted note) iteration of
src/bin/darkfid-old.rs `State::apply`. -/
def StateOld.applyCoinStep (s : StateOld) (p : Coin × EncryptedNote) : StateOld :=
  let node := MerkleNode.from_coin p.1
  let tree := s.tree.append node
  let merkle_roots := s.merkle_roots.put tree.root
  let wallet1 : Wallet :=
    { s.wallet with witnesses := s.wallet.witnesses.map (fun w => w.append node) }
  let s1 : StateOld := { s with tree := tree, merkle_roots := merkle_roots, wallet := wallet1 }
  match s1.try_decrypt_note p.2 with
  | some (note, secret) =>
      { s1 with wallet :=
          s1.wallet.put_own_coins p.1 note (IncrementalWitness.from_tree s1.tree) secret }
  | none => s1

/-- The coin loop of src/bin/darkfid-old.rs `State::apply`. -/
def StateOld.applyCoins (s : StateOld) (ps : List (Coin × EncryptedNote)) : StateOld :=
  ps.foldl StateOld.applyCoinStep s

/-- src/bin/darkfid-old.rs `State::apply`, state part. -/
def StateOld.applyState (s : StateOld) (u : StateUpdate) : StateOld :=
  let s1 : StateOld := { s with nullifiers := u.nullifiers.foldl RocksColumn.put s.nullifiers }
  StateOld.applyCoins s1 (u.coins.zip u.enc_notes)

/-- src/bin/darkfid-old.rs `State::apply`. -/
def StateOld.apply (s : StateOld) (u : StateUpdate) : Except DarkError StateOld :=
  .ok (s.applyState u)

/-! CLI embedding, from src/cli/drk_cli.rs. -/

structure TransferParams where
  pub_key : String
  amount : Nat
deriving DecidableEq

def TransferParams.new : TransferParams := ⟨"", 0⟩

structure WithdrawParams where
  pub_key : String
  amount : Nat
deriving DecidableEq

def WithdrawParams.new : WithdrawParams := ⟨"", 0⟩

structure Deposit where
  asset : String
deriving DecidableEq

def Deposit.new : Deposit := ⟨""⟩

structure DrkCli where
  verbose : Bool
  cashier : Bool
  wallet : Bool
  key : Bool
  get_key : Bool
  info : Bool
  hello : Bool
  stop : Bool
  transfer : Option TransferParams
  deposit : Option Deposit
  withdraw : Option WithdrawParams
deriving DecidableEq

/-- The argument values of one parsed subcommand (clap `value_of` results). -/
structure SubArgs where
  address : Option String
  amount : Option String
deriving DecidableEq

/-- The result of clap argument matching for the Drk CLI: flag presence and
the matched subcommands, if any. -/
structure ArgMatches where
  verbose : Bool
  cashier : Bool
  wallet : Bool
  key : Bool
  info : Bool
  hello : Bool
  stop : Bool
  getkey : Bool
  deposit_sub : Bool
  transfer_sub : Option SubArgs
  withdraw_sub : Option SubArgs
deriving DecidableEq

/-- Rust `str::parse::<u64>` reduced to decimal natural parsing. -/
def parseU64 (s : String) : Except DarkError Nat :=
  match s.toNat? with
  | some n => .ok n
  | none => .error .parseFail

/-- The `transfer` subcommand arm of `DrkCli::load`: start from
`TransferParams::new()`, overwrite the fields that were supplied, with
`amount.parse()?` propagating a parse error. -/
def loadTransferSub : Option SubArgs → Except DarkError (Option TransferParams)
  | none => .ok none
  | some transfer_sub =>
    let trn1 :=
      match transfer_sub.address with
      | some address => { TransferParams.new with pub_key := address }
      | none => TransferParams.new
    match transfer_sub.amount with
    | some amount =>
      match parseU64 amount with
      | .ok a => .ok (some { trn1 with amount := a })
      | .error e => .error e
    | none => .ok (some trn1)

/-- The `withdraw` subcommand arm of `DrkCli::load`. -/
def loadWithdrawSub : Option SubArgs → Except DarkError (Option WithdrawParams)
  | none => .ok none
  | some withdraw_sub =>
    let wd1 :=
      match withdraw_sub.address with
      | some address => { WithdrawParams.new with pub_key := address }
      | none => WithdrawParams.new
    match withdraw_sub.amount with
    | some amount =>
      match parseU64 amount with
      | .ok a => .ok (some { wd1 with amount := a })
      | .error e => .error e
    | none => .ok (some wd1)

/-- src/cli/drk_cli.rs `DrkCli::load`.  The `deposit` subcommand match arm
has an empty body (the `Deposit::new()` construction is commented out), so
`deposit` keeps its initial `None` binding no matter what was matched. -/
def DrkCli.load (app : ArgMatches) : Except DarkError DrkCli :=
  match loadTransferSub app.transfer_sub with
  | .error e => .error e
  | .ok transfer =>
    match loadWithdrawSub app.withdraw_sub with
    | .error e => .error e
    | .ok withdraw =>
      .ok { verbose := app.verbose, cashier := app.cashier, wallet := app.wallet,
            key := app.key, get_key := app.getkey, info := app.info, hello := app.hello,
            stop := app.stop, transfer := transfer, deposit := none, withdraw := withdraw }

/-! Concrete instances used by counterexamples and witnesses. -/

/-- The `State` built in src/bin/darkfid.rs `start`: empty tree, fresh
columns, no owned coins, one wallet secret. -/
def initState : State :=
  { tree := CommitmentTree.empty, merkle_roots := ⟨[]⟩, nullifiers := ⟨[]⟩,
    own_coins := [], mint_pvk := 0, spend_pvk := 0, cashier_public := 0,
    secrets := [7], cashierTable := [] }

/-- `initState` with nullifier 5 already recorded. -/
def exStateNf : State := { initState with nullifiers := ⟨[5]⟩ }

/-- An update that reuses nullifier 5 and carries one coin. -/
def exUpdateDup : StateUpdate := ⟨[5], [3], [⟨0, 0⟩]⟩

/-- An update with one coin and no nullifiers. -/
def exUpdateOneCoin : StateUpdate := ⟨[], [3], [⟨0, 0⟩]⟩

/-- An update whose coin and note lists have different lengths. -/
def exUpdateMismatch : StateUpdate := ⟨[], [3, 4], [⟨0, 0⟩]⟩

/-- A slab whose payload does not decode. -/
def badSlab : Slab := ⟨none⟩

/-- A slab carrying a valid transaction with one fresh coin. -/
def goodSlab : Slab := ⟨some ⟨true, ⟨[], [9], [⟨0, 0⟩]⟩⟩⟩

/-- A note encrypted under secret 7, which `initState` holds. -/
def exEncNote : EncryptedNote := ⟨7, 42⟩

/-- The darkfid-old state whose wallet private key is 7. -/
def exOldState : StateOld :=
  { tree := CommitmentTree.empty, merkle_roots := ⟨[]⟩, nullifiers := ⟨[]⟩,
    mint_pvk := 0, spend_pvk := 0,
    wallet := { privateKey := 7, witnesses := [], own_coins := [] } }

/-- `initState` with one registered cashier key. -/
def exStateCash : State := { initState with cashierTable := [1] }

/-- Argument matches selecting only the `deposit` subcommand. -/
def exApp : ArgMatches :=
  { verbose := false, cashier := false, wallet := false, key := false, info := false,
    hello := false, stop := false, getkey := false, deposit_sub := true,
    transfer_sub := none, withdraw_sub := none }

/-- The CLI value `DrkCli.load` produces for `exApp`. -/
def exCli : DrkCli :=
  { verbose := false, cashier := false, wallet := false, key := false, get_key := false,
    info := false, hello := false, stop := false, transfer := none, deposit := none,
    withdraw := none }

/-- The invariant relating the root-history column to the commitment tree:
the recorded roots are exactly the nonempty prefixes of the current leaf
sequence, i.e. the roots held immediately after each append. -/
def rootsInv (s : State) : Prop :=
  ∀ root : MerkleRoot,
    s.is_valid_merkle root = true
      ↔ ∃ k : Nat, 0 < k ∧ k ≤ s.tree.leaves.length ∧ root = s.tree.leaves.take k

/-! Helper lemmas about the store columns and the apply loops. -/

theorem RocksColumn.mem_put {α : Type} [DecidableEq α] (c : RocksColumn α) (k x : α) :
    x ∈ (c.put k).keys ↔ x ∈ c.keys ∨ x = k := by
  unfold RocksColumn.put
  by_cases h : k ∈ c.keys
  · simp only [if_pos h]
    constructor
    · exact Or.inl
    · rintro (hx | rfl)
      · exact hx
      · exact h
  · simp [if_neg h, List.mem_append]

theorem RocksColumn.key_exist_eq_true {α : Type} [DecidableEq α] (c : RocksColumn α) (k : α) :
    c.key_exist k = true ↔ k ∈ c.keys := by
  simp [RocksColumn.key_exist]

theorem mem_foldl_put {α : Type} [DecidableEq α] (l : List α) (c : RocksColumn α) (x : α) :
    x ∈ (l.foldl RocksColumn.put c).keys ↔ x ∈ c.keys ∨ x ∈ l := by
  induction l generalizing c with
  | nil => simp
  | cons a t ih =>
    rw [List.foldl_cons, ih, RocksColumn.mem_put]
    simp [or_assoc]

theorem State.applyCoinStep_leaves (s : State) (p : Coin × EncryptedNote) :
    (s.applyCoinStep p).tree.leaves = s.tree.leaves ++ [MerkleNode.from_coin p.1] := rfl

theorem State.applyCoinStep_roots (s : State) (p : Coin × EncryptedNote) :
    (s.applyCoinStep p).merkle_roots
      = s.merkle_roots.put (s.tree.leaves ++ [MerkleNode.from_coin p.1]) := rfl

theorem State.applyCoinStep_frame (s : State) (p : Coin × EncryptedNote) :
    (s.applyCoinStep p).nullifiers = s.nullifiers
    ∧ (s.applyCoinStep p).mint_pvk = s.mint_pvk
    ∧ (s.applyCoinStep p).spend_pvk = s.spend_pvk
    ∧ (s.applyCoinStep p).cashier_public = s.cashier_public
    ∧ (s.applyCoinStep p).secrets = s.secrets
    ∧ (s.applyCoinStep p).cashierTable = s.cashierTable :=
  ⟨rfl, rfl, rfl, rfl, rfl, rfl⟩

theorem State.foldl_applyCoinStep_leaves (ps : List (Coin × EncryptedNote)) (s : State) :
    (ps.foldl State.applyCoinStep s).tree.leaves
      = s.tree.leaves ++ ps.map (fun p => MerkleNode.from_coin p.1) := by
  induction ps generalizing s with
  | nil => simp
  | cons p t ih =>
    rw [List.foldl_cons, ih, State.applyCoinStep_leaves]
    simp

theorem State.foldl_applyCoinStep_frame (ps : List (Coin × EncryptedNote)) (s : State) :
    (ps.foldl State.applyCoinStep s).nullifiers = s.nullifiers
    ∧ (ps.foldl State.applyCoinStep s).mint_pvk = s.mint_pvk
    ∧ (ps.foldl State.applyCoinStep s).spend_pvk = s.spend_pvk
    ∧ (ps.foldl State.applyCoinStep s).cashier_public = s.cashier_public
    ∧ (ps.foldl State.applyCoinStep s).secrets = s.secrets
    ∧ (ps.foldl State.applyCoinStep s).cashierTable = s.cashierTable := by
  induction ps generalizing s with
  | nil => exact ⟨rfl, rfl, rfl, rfl, rfl, rfl⟩
  | cons p t ih =>
    rw [List.foldl_cons]
    obtain ⟨h1, h2, h3, h4, h5, h6⟩ := ih (s.applyCoinStep p)
    exact ⟨h1.trans rfl, h2.trans rfl, h3.trans rfl, h4.trans rfl, h5.trans rfl, h6.trans rfl⟩

theorem State.applyState_nullifiers (s : State) (u : StateUpdate) :
    (s.applyState u).nullifiers = u.nullifiers.foldl RocksColumn.put s.nullifiers :=
  (State.foldl_applyCoinStep_frame (u.coins.zip u.enc_notes)
    { s with nullifiers := u.nullifiers.foldl RocksColumn.put s.nullifiers }).1

theorem State.applyState_leaves (s : State) (u : StateUpdate) :
    (s.applyState u).tree.leaves
      = s.tree.leaves ++ (u.coins.zip u.enc_notes).map (fun p => MerkleNode.from_coin p.1) :=
  State.foldl_applyCoinStep_leaves (u.coins.zip u.enc_notes)
    { s with nullifiers := u.nullifiers.foldl RocksColumn.put s.nullifiers }

theorem State.applyState_nullifier_mem (s : State) (u : StateUpdate) (m : Nullifier) :
    (s.applyState u).nullifier_exists m = true
      ↔ (s.nullifier_exists m = true ∨ m ∈ u.nullifiers) := by
  simp only [State.nullifier_exists]
  rw [State.applyState_nullifiers, RocksColumn.key_exist_eq_true,
    RocksColumn.key_exist_eq_true, mem_foldl_put]

theorem State.applyState_frame (s : State) (u : StateUpdate) :
    (s.applyState u).mint_pvk = s.mint_pvk
    ∧ (s.applyState u).spend_pvk = s.spend_pvk
    ∧ (s.applyState u).cashier_public = s.cashier_public
    ∧ (s.applyState u).secrets = s.secrets
    ∧ (s.applyState u).cashierTable = s.cashierTable := by
  obtain ⟨-, h2, h3, h4, h5, h6⟩ := State.foldl_applyCoinStep_frame (u.coins.zip u.enc_notes)
    { s with nullifiers := u.nullifiers.foldl RocksColumn.put s.nullifiers }
  exact ⟨h2, h3, h4, h5, h6⟩

theorem State.applyAll_pvks (us : List StateUpdate) (s : State) :
    (s.applyAll us).mint_pvk = s.mint_pvk ∧ (s.applyAll us).spend_pvk = s.spend_pvk := by
  induction us generalizing s with
  | nil => exact ⟨rfl, rfl⟩
  | cons u t ih =>
    obtain ⟨h1, h2⟩ := ih (s.applyState u)
    obtain ⟨g1, g2, -, -, -⟩ := State.applyState_frame s u
    exact ⟨h1.trans g1, h2.trans g2⟩

theorem take_append_of_le {α : Type} (l₁ l₂ : List α) (k : Nat) (h : k ≤ l₁.length) :
    (l₁ ++ l₂).take k = l₁.take k := by
  rw [List.take_append_eq_append_take, Nat.sub_eq_zero_of_le h]
  simp

theorem rootsInv_applyCoinStep (s : State) (p : Coin × EncryptedNote)
    (h : rootsInv s) : rootsInv (s.applyCoinStep p) := by
  intro root
  have hm := h root
  simp only [State.is_valid_merkle, RocksColumn.key_exist_eq_true] at hm ⊢
  rw [State.applyCoinStep_roots, RocksColumn.mem_put, hm, State.applyCoinStep_leaves]
  constructor
  · rintro (⟨k, hk0, hkle, rfl⟩ | rfl)
    · refine ⟨k, hk0, by simp; omega, (take_append_of_le _ _ k hkle).symm⟩
    · refine ⟨s.tree.leaves.length + 1, Nat.succ_pos _, by simp, ?_⟩
      rw [List.take_of_length_le (by simp)]
  · rintro ⟨k, hk0, hkle, rfl⟩
    rcases Nat.lt_or_ge k (s.tree.leaves.length + 1) with hlt | hge
    · left
      have hle : k ≤ s.tree.leaves.length := Nat.lt_succ_iff.mp hlt
      exact ⟨k, hk0, hle, take_append_of_le _ _ k hle⟩
    · right
      rw [List.take_of_length_le (by simp; omega)]

theorem rootsInv_foldl (ps : List (Coin × EncryptedNote)) (s : State) (h : rootsInv s) :
    rootsInv (ps.foldl State.applyCoinStep s) := by
  induction ps generalizing s with
  | nil => exact h
  | cons p t ih => exact ih _ (rootsInv_applyCoinStep s p h)

theorem rootsInv_applyState (s : State) (u : StateUpdate) (h : rootsInv s) :
    rootsInv (s.applyState u) :=
  rootsInv_foldl (u.coins.zip u.enc_notes)
    { s with nullifiers := u.nullifiers.foldl RocksColumn.put s.nullifiers } h

theorem rootsInv_applyAll (us : List StateUpdate) (s : State) (h : rootsInv s) :
    rootsInv (s.applyAll us) := by
  induction us generalizing s with
  | nil => exact h
  | cons u t ih => exact ih _ (rootsInv_applyState s u h)

theorem rootsInv_initState : rootsInv initState := by
  intro root
  simp [initState, rootsInv, State.is_valid_merkle, RocksColumn.key_exist,
    CommitmentTree.empty, Nat.le_zero]
  intro x hx hx0
  omega

theorem merkle_mem_foldl (ps : List (Coin × EncryptedNote)) (s : State) (root : MerkleRoot)
    (h : root ∈ s.merkle_roots.keys) :
    root ∈ (ps.foldl State.applyCoinStep s).merkle_roots.keys := by
  induction ps generalizing s with
  | nil => exact h
  | cons p t ih =>
    refine ih _ ?_
    rw [State.applyCoinStep_roots, RocksColumn.mem_put]
    exact Or.inl h

theorem State.applyState_merkle_mono (s : State) (u : StateUpdate) (root : MerkleRoot)
    (h : s.is_valid_merkle root = true) : (s.applyState u).is_valid_merkle root = true := by
  simp only [State.is_valid_merkle, RocksColumn.key_exist_eq_true] at h ⊢
  exact merkle_mem_foldl (u.coins.zip u.enc_notes)
    { s with nullifiers := u.nullifiers.foldl RocksColumn.put s.nullifiers } root h

theorem zip_map_fst_take {α β : Type} (l₁ : List α) (l₂ : List β) :
    (l₁.zip l₂).map Prod.fst = l₁.take (min l₁.length l₂.length) := by
  induction l₁ generalizing l₂ with
  | nil => simp
  | cons a t ih =>
    cases l₂ with
    | nil => simp
    | cons b t₂ => simp [ih, Nat.succ_min_succ]

/-! Claim theorems. -/

/-- Claim C1: in `apply`, each (coin, encrypted-note) pair, taken in update order,
appends the coin's leaf to the commitment tree, records the tree's new root in
root history, advances every previously held witness by exactly one step with the
freshly appended leaf before the next pair is processed, and, when decryption
succeeds, creates a new witness from the tree state immediately after this coin's
append (before any later coin is appended) and registers the owned-coin record;
the pair loop runs on the nullifier-extended state. -/
theorem apply_coin_pair_step_contract (s : StateOld) (coin : Coin) (en : EncryptedNote)
    (ps : List (Coin × EncryptedNote)) (u : StateUpdate) :
    ((s.applyCoinStep (coin, en)).tree = s.tree.append (MerkleNode.from_coin coin))
    ∧ ((s.applyCoinStep (coin, en)).merkle_roots
        = s.merkle_roots.put ((s.tree.append (MerkleNode.from_coin coin)).root))
    ∧ ((s.applyCoinStep (coin, en)).wallet.witnesses
        = s.wallet.witnesses.map (fun w => w.append (MerkleNode.from_coin coin))
          ++ (match s.try_decrypt_note en with
              | some _ =>
                [IncrementalWitness.from_tree (s.tree.append (MerkleNode.from_coin coin))]
              | none => []))
    ∧ (match s.try_decrypt_note en with
       | some (note, secret) =>
          (s.applyCoinStep (coin, en)).wallet.own_coins
            = s.wallet.own_coins
              ++ [(coin, note, secret,
                   IncrementalWitness.from_tree (s.tree.append (MerkleNode.from_coin coin)))]
       | none => (s.applyCoinStep (coin, en)).wallet.own_coins = s.wallet.own_coins)
    ∧ (StateOld.applyCoins s ((coin, en) :: ps)
        = StateOld.applyCoins (s.applyCoinStep (coin, en)) ps)
    ∧ (s.applyState u
        = StateOld.applyCoins
            { s with nullifiers := u.nullifiers.foldl RocksColumn.put s.nullifiers }
            (u.coins.zip u.enc_notes)) := by
  rcases hd : en.decrypt s.wallet.privateKey with _ | note
  all_goals
    refine ⟨?_, ?_, ?_, ?_, rfl, rfl⟩ <;>
      simp [StateOld.applyCoinStep, StateOld.try_decrypt_note, Wallet.get_private,
        Wallet.put_own_coins, hd]

/-- Claim C3: `apply` inserts every nullifier of the update into the nullifier set
before any coin of the same update is appended: the nullifier phase leaves the
tree untouched and makes every update nullifier present, and `apply`'s state
change is exactly the coin loop run on that nullifier-extended state. -/
theorem apply_inserts_nullifiers_before_tree_mutation (s : State) (u : StateUpdate) :
    (({ s with nullifiers := u.nullifiers.foldl RocksColumn.put s.nullifiers } : State).tree
        = s.tree)
    ∧ (∀ n ∈ u.nullifiers,
        ({ s with
            nullifiers := u.nullifiers.foldl RocksColumn.put s.nullifiers } : State).nullifier_exists n = true)
    ∧ (s.applyState u
        = (u.coins.zip u.enc_notes).foldl State.applyCoinStep
            { s with nullifiers := u.nullifiers.foldl RocksColumn.put s.nullifiers }) := by
  refine ⟨rfl, ?_, rfl⟩
  intro n hn
  simp only [State.nullifier_exists, RocksColumn.key_exist_eq_true]
  exact (mem_foldl_put _ _ _).mpr (Or.inr hn)

/-- Witness for the claim C3 theorem at a concrete state and update. -/
theorem apply_inserts_nullifiers_before_tree_mutation_witness :
    ({ initState with
        nullifiers := exUpdateDup.nullifiers.foldl RocksColumn.put initState.nullifiers } : State).nullifier_exists 5 = true :=
  (apply_inserts_nullifiers_before_tree_mutation initState exUpdateDup).2.1 5 (by decide)

/-- Claim C8: `apply` leaves the mint and spend prepared verifying keys (and the
other non-state fields) unchanged, for a single call and for any sequence of
calls. -/
theorem apply_preserves_verifying_keys (s : State) (u : StateUpdate) (us : List StateUpdate) :
    (s.applyState u).mint_pvk = s.mint_pvk
    ∧ (s.applyState u).spend_pvk = s.spend_pvk
    ∧ (s.applyState u).cashier_public = s.cashier_public
    ∧ (s.applyState u).secrets = s.secrets
    ∧ (s.applyAll us).mint_pvk = s.mint_pvk
    ∧ (s.applyAll us).spend_pvk = s.spend_pvk := by
  obtain ⟨h1, h2, h3, h4, -⟩ := State.applyState_frame s u
  obtain ⟨g1, g2⟩ := State.applyAll_pvks us s
  exact ⟨h1, h2, h3, h4, g1, g2⟩

/-- Claim C2 counterexample: with nullifier 5 already recorded, applying an
update that contains 5 again is not rejected: `apply` returns Ok and the
commitment tree grows from 0 to 1 leaves. -/
theorem apply_duplicate_nullifier_not_rejected_cex :
    exStateNf.nullifier_exists 5 = true
    ∧ 5 ∈ exUpdateDup.nullifiers
    ∧ exStateNf.tree.leaves.length = 0
    ∧ (exStateNf.apply exUpdateDup).toOption.map (fun s => s.tree.leaves.length) = some 1 := by
  decide

/-- Claim C2 (amended): `apply` itself performs no duplicate-nullifier check and
never rejects: on an update containing an already-present nullifier it still
returns Ok, re-inserting the nullifier without further effect on set membership,
and appends the update's coins to the tree; rejection of a reused nullifier is
the job of the external validator invoked before `apply`, which does reject. -/
theorem apply_duplicate_nullifier_behavior (s : State) (u : StateUpdate) (n : Nullifier)
    (h1 : s.nullifier_exists n = true) (h2 : n ∈ u.nullifiers) :
    (∃ s' : State, s.apply u = .ok s'
      ∧ s'.tree.leaves.length
          = s.tree.leaves.length + min u.coins.length u.enc_notes.length
      ∧ (∀ m : Nullifier,
          s'.nullifier_exists m = true ↔ (s.nullifier_exists m = true ∨ m ∈ u.nullifiers)))
    ∧ (∀ tx : Transaction, tx.proofsValid = true → tx.update = u →
        state_transition s tx = .error .nullifierReused) := by
  constructor
  · refine ⟨s.applyState u, rfl, ?_, fun m => State.applyState_nullifier_mem s u m⟩
    rw [State.applyState_leaves]
    simp [List.length_zip]
  · intro tx hpv hup
    have hany : tx.update.nullifiers.any (fun m => s.nullifier_exists m) = true := by
      rw [hup]
      exact List.any_eq_true.mpr ⟨n, h2, h1⟩
    simp [state_transition, hpv, hany]

/-- Witness for the claim C2 amended theorem at a concrete state and update. -/
theorem apply_duplicate_nullifier_behavior_witness :
    exStateNf.nullifier_exists 5 = true
    ∧ 5 ∈ exUpdateDup.nullifiers
    ∧ ((∃ s' : State, exStateNf.apply exUpdateDup = .ok s'
          ∧ s'.tree.leaves.length
              = exStateNf.tree.leaves.length
                + min exUpdateDup.coins.length exUpdateDup.enc_notes.length
          ∧ (∀ m : Nullifier,
              s'.nullifier_exists m = true
                ↔ (exStateNf.nullifier_exists m = true ∨ m ∈ exUpdateDup.nullifiers)))
        ∧ (∀ tx : Transaction, tx.proofsValid = true → tx.update = exUpdateDup →
            state_transition exStateNf tx = .error .nullifierReused)) :=
  ⟨by decide, by decide,
    apply_duplicate_nullifier_behavior exStateNf exUpdateDup 5 (by decide) (by decide)⟩

/-- Claim C4 counterexample: from the initial state the tree holds the empty
root, yet after one apply the root history does not contain it, so the history
is not the set of all roots the tree has ever held including the initial state. -/
theorem root_history_missing_initial_root_cex :
    initState.tree = CommitmentTree.empty
    ∧ (initState.applyState exUpdateOneCoin).tree.leaves.length = 1
    ∧ (initState.applyState exUpdateOneCoin).is_valid_merkle CommitmentTree.empty.root
        = false := by
  decide

/-- Claim C4 (amended): after any sequence of applies from the initial state the
root history is exactly the set of roots the tree has held immediately after
each append — every per-append intermediate root and the final root, excluding
the initial empty-tree root — i.e. the nonempty prefixes of the final leaf
sequence; `is_valid_merkle` is the membership test of that history, and
membership is preserved by any further apply (monotone growth). -/
theorem root_history_after_applies (us : List StateUpdate) :
    (∀ root : MerkleRoot,
        (initState.applyAll us).is_valid_merkle root = true
          ↔ ∃ k : Nat, 0 < k ∧ k ≤ (initState.applyAll us).tree.leaves.length
              ∧ root = (initState.applyAll us).tree.leaves.take k)
    ∧ (∀ (u : StateUpdate) (root : MerkleRoot),
        (initState.applyAll us).is_valid_merkle root = true
          → ((initState.applyAll us).applyState u).is_valid_merkle root = true) :=
  ⟨rootsInv_applyAll us initState rootsInv_initState,
    fun u root h => State.applyState_merkle_mono _ u root h⟩

/-- Witness for the claim C4 theorem: after one apply, the post-append root is
recognised by is_valid_merkle. -/
theorem root_history_after_applies_witness :
    (initState.applyAll [exUpdateOneCoin]).is_valid_merkle [3] = true :=
  ((root_history_after_applies [exUpdateOneCoin]).1 [3]).mpr
    ⟨1, by decide, by decide, by decide⟩

/-- Claim C5 counterexample: a slab whose payload fails to decode makes the
subscriber loop return an error, terminating the task, and the following valid
slab is never processed — although on its own that slab would have been applied,
growing the tree to one leaf. -/
theorem broker_failure_terminates_cex :
    subscribe initState [badSlab, goodSlab] = .error DarkError.decodeFail
    ∧ (subscribe initState [goodSlab]).toOption.map (fun s => s.tree.leaves.length)
        = some 1 := by
  exact ⟨rfl, rfl⟩

/-- Claim C5 (amended): a decode failure or validation failure on a received
payload is not a per-transaction rejection that lets the loop continue — the
error propagates out of the loop, terminating the broker task, and subsequent
queued events are never processed. -/
theorem broker_failure_terminates (s : State) (slab : Slab) (rest : List Slab)
    (e : DarkError) :
    (Transaction.decode slab = .error e → subscribe s (slab :: rest) = .error e)
    ∧ (∀ tx : Transaction, Transaction.decode slab = .ok tx
        → state_transition s tx = .error e → subscribe s (slab :: rest) = .error e) := by
  constructor
  · intro h
    simp [subscribe, h]
  · intro tx h1 h2
    simp [subscribe, h1, h2]

/-- Witness for the claim C5 amended theorem at a concrete event sequence. -/
theorem broker_failure_terminates_witness :
    Transaction.decode badSlab = .error DarkError.decodeFail
    ∧ subscribe initState (badSlab :: [goodSlab]) = .error DarkError.decodeFail :=
  ⟨rfl, (broker_failure_terminates initState badSlab [goodSlab] DarkError.decodeFail).1 rfl⟩

/-- Claim C6 (code bug evaluation): a note encrypted under secret 7, which the
state holds, is decryptable — the darkfid-old implementation returns the
(note, secret) pair — but `try_decrypt_note` of darkfid.rs, whose whole
trial-decryption body is commented out, returns None without trying any held
secret. -/
theorem try_decrypt_note_stub_ignores_secrets :
    7 ∈ initState.secrets
    ∧ exEncNote.decrypt 7 = some 42
    ∧ initState.try_decrypt_note exEncNote = none
    ∧ exOldState.try_decrypt_note exEncNote = some (42, 7) := by
  decide

/-- Claim C7 (code bug evaluation): the cashier-key check never returns a
boolean on any input — `exists([1i32])` supplies one parameter to a statement
with zero placeholders, rusqlite reports the parameter-count mismatch, and the
unwrap panics (modelled as none).  Concretely, with key 1 registered, the
absent key 2 does not yield false as the claim requires; the key is never
compared against the registry. -/
theorem cashier_key_check_panics :
    stmtExists cashierQueryParamCount [1] (!exStateCash.cashierTable.isEmpty)
        = .error (.invalidParamCount 1 0)
    ∧ 2 ∉ exStateCash.cashierTable
    ∧ exStateCash.is_valid_cashier_public_key 2 = none
    ∧ ∀ (s : State) (k : PubKey), s.is_valid_cashier_public_key k = none :=
  ⟨rfl, by decide, rfl, fun _ _ => rfl⟩

/-- Claim C9: when the coins and enc_notes lists differ in length, `apply`
processes exactly the first min(|coins|, |enc_notes|) pairs, appending only
those coins' leaves, silently ignores the excess elements, and still returns
success. -/
theorem apply_length_mismatch_truncates (s : State) (u : StateUpdate)
    (_h : u.coins.length ≠ u.enc_notes.length) :
    ∃ s' : State, s.apply u = .ok s'
      ∧ s'.tree.leaves
          = s.tree.leaves
            ++ (u.coins.take (min u.coins.length u.enc_notes.length)).map MerkleNode.from_coin
      ∧ s'.tree.leaves.length
          = s.tree.leaves.length + min u.coins.length u.enc_notes.length := by
  refine ⟨s.applyState u, rfl, ?_, ?_⟩
  · rw [State.applyState_leaves]
    congr 1
    have hc : (fun p : Coin × EncryptedNote => MerkleNode.from_coin p.1)
        = MerkleNode.from_coin ∘ Prod.fst := rfl
    rw [hc, ← List.map_map, zip_map_fst_take]
  · rw [State.applyState_leaves]
    simp [List.length_zip]

/-- Witness for the claim C9 theorem at a concrete mismatched update. -/
theorem apply_length_mismatch_truncates_witness :
    exUpdateMismatch.coins.length ≠ exUpdateMismatch.enc_notes.length
    ∧ ∃ s' : State, initState.apply exUpdateMismatch = .ok s'
        ∧ s'.tree.leaves
            = initState.tree.leaves
              ++ (exUpdateMismatch.coins.take
                  (min exUpdateMismatch.coins.length exUpdateMismatch.enc_notes.length)).map
                  MerkleNode.from_coin
        ∧ s'.tree.leaves.length
            = initState.tree.leaves.length
              + min exUpdateMismatch.coins.length exUpdateMismatch.enc_notes.length :=
  ⟨by decide, apply_length_mismatch_truncates initState exUpdateMismatch (by decide)⟩

/-- Claim C10: every command line accepted by DrkCli::load yields deposit =
None, even when the deposit subcommand was matched: the deposit match arm never
constructs a Deposit value. -/
theorem load_deposit_always_none (app : ArgMatches) (cli : DrkCli)
    (h : DrkCli.load app = .ok cli) : cli.deposit = none := by
  unfold DrkCli.load at h
  split at h
  · exact Except.noConfusion h
  · split at h
    · exact Except.noConfusion h
    · injection h with h
      subst h
      rfl

/-- Witness for the claim C10 theorem: the deposit subcommand alone still
yields deposit = None. -/
theorem load_deposit_always_none_witness :
    exApp.deposit_sub = true
    ∧ DrkCli.load exApp = .ok exCli
    ∧ exCli.deposit = none :=
  ⟨rfl, rfl, load_deposit_always_none exApp exCli rfl⟩

end DarkfiSpec
